import Mathlib

/-!
Verification of the component-registry layer of `src/scene/models/Model.js`
(xeokit-sdk). The registry ("Model") owns a set of components and maintains
derived index maps (`components`, `types`, `objects`, `meshes`, `entities`,
`entityTypes`, `guidObjects`) plus three lazily rebuilt key-list projections.

JavaScript plain objects used as dictionaries are modelled as
insertion-ordered association lists over `String` keys: property write
(`o[k] = v`) updates in place when the key exists and appends otherwise,
`delete o[k]` removes the entry, and `Object.keys` returns keys in insertion
order — exactly the behaviour of string-keyed JS objects.
-/

namespace Xeokit

/-- Insertion-ordered dictionary, the model of a JS plain object. -/
abbrev JsMap (α : Type) := List (String × α)

/-- Property read `o[k]`: first entry with the key, `none` when absent. -/
def jsGet {α : Type} : JsMap α → String → Option α
  | [], _ => none
  | (k1, v1) :: t, k => if k1 = k then some v1 else jsGet t k

/-- Property write `o[k] = v`: update in place, append when absent. -/
def jsSet {α : Type} : JsMap α → String → α → JsMap α
  | [], k, v => [(k, v)]
  | (k1, v1) :: t, k, v => if k1 = k then (k1, v) :: t else (k1, v1) :: jsSet t k v

/-- Property delete `delete o[k]`. -/
def jsDelete {α : Type} : JsMap α → String → JsMap α
  | [], _ => []
  | (k1, v1) :: t, k => if k1 = k then jsDelete t k else (k1, v1) :: jsDelete t k

/-- The key list `Object.keys o`, in insertion order. -/
def keys {α : Type} (l : JsMap α) : List String := l.map Prod.fst

/-- The value list of a JS object, in insertion order. -/
def values {α : Type} (l : JsMap α) : List α := l.map Prod.snd

theorem keys_nil {α : Type} : keys ([] : JsMap α) = [] := rfl

theorem keys_cons {α : Type} (k1 : String) (v1 : α) (t : JsMap α) :
    keys ((k1, v1) :: t) = k1 :: keys t := rfl

theorem values_nil {α : Type} : values ([] : JsMap α) = [] := rfl

theorem values_cons {α : Type} (k1 : String) (v1 : α) (t : JsMap α) :
    values ((k1, v1) :: t) = v1 :: values t := rfl

theorem jsGet_jsSet {α : Type} (l : JsMap α) (k k' : String) (v : α) :
    jsGet (jsSet l k v) k' = if k = k' then some v else jsGet l k' := by
  induction l with
  | nil => by_cases h : k = k' <;> simp [jsSet, jsGet, h]
  | cons p t ih =>
    obtain ⟨k1, v1⟩ := p
    by_cases h1 : k1 = k
    · subst h1
      by_cases h2 : k1 = k' <;> simp [jsSet, jsGet, h2]
    · by_cases h2 : k1 = k'
      · have hkk : ¬ (k = k') := fun he => h1 (h2.trans he.symm)
        simp only [jsSet, if_neg h1, jsGet, if_pos h2, if_neg hkk]
      · simp only [jsSet, if_neg h1, jsGet, if_neg h2, ih]

theorem jsGet_jsDelete {α : Type} (l : JsMap α) (k k' : String) :
    jsGet (jsDelete l k) k' = if k = k' then none else jsGet l k' := by
  induction l with
  | nil => by_cases h : k = k' <;> simp [jsDelete, jsGet, h]
  | cons p t ih =>
    obtain ⟨k1, v1⟩ := p
    by_cases h1 : k1 = k
    · subst h1
      simp only [jsDelete, eq_self_iff_true, if_true]
      by_cases h2 : k1 = k'
      · rw [ih, if_pos h2, if_pos h2]
      · rw [ih, if_neg h2, if_neg h2]
        simp [jsGet, h2]
    · by_cases h2 : k1 = k'
      · have hkk : ¬ (k = k') := fun he => h1 (h2.trans he.symm)
        simp only [jsDelete, if_neg h1, jsGet, if_pos h2, if_neg hkk]
      · simp only [jsDelete, if_neg h1, jsGet, if_neg h2, ih]

theorem jsGet_eq_none_iff {α : Type} (l : JsMap α) (k : String) :
    jsGet l k = none ↔ k ∉ keys l := by
  induction l with
  | nil => simp [jsGet, keys_nil]
  | cons p t ih =>
    obtain ⟨k1, v1⟩ := p
    rw [keys_cons]
    by_cases h1 : k1 = k
    · subst h1
      simp [jsGet]
    · simp only [jsGet, if_neg h1, List.mem_cons]
      rw [ih]
      constructor
      · intro hn hc
        rcases hc with he | hm
        · exact h1 he.symm
        · exact hn hm
      · intro hn hm
        exact hn (Or.inr hm)

theorem mem_of_jsGet_eq_some {α : Type} {l : JsMap α} {k : String} {v : α}
    (h : jsGet l k = some v) : (k, v) ∈ l := by
  induction l with
  | nil => simp [jsGet] at h
  | cons p t ih =>
    obtain ⟨k1, v1⟩ := p
    by_cases h1 : k1 = k
    · subst h1
      simp [jsGet] at h
      simp [h]
    · simp only [jsGet, if_neg h1] at h
      exact List.mem_cons_of_mem _ (ih h)

theorem jsGet_eq_some_of_mem_nodup {α : Type} {l : JsMap α} {k : String} {v : α}
    (hd : (keys l).Nodup) (h : (k, v) ∈ l) : jsGet l k = some v := by
  induction l with
  | nil => simp at h
  | cons p t ih =>
    obtain ⟨k1, v1⟩ := p
    rw [keys_cons, List.nodup_cons] at hd
    rcases List.mem_cons.mp h with heq | hmem
    · have hk : k1 = k := (congrArg Prod.fst heq).symm
      have hv : v = v1 := congrArg Prod.snd heq
      simp [jsGet, hk, hv]
    · have hk1 : k1 ≠ k := by
        intro he
        subst he
        exact hd.1 (by simpa [keys] using List.mem_map_of_mem Prod.fst hmem)
      simp only [jsGet, if_neg hk1]
      exact ih hd.2 hmem

theorem mem_of_mem_jsDelete {α : Type} {l : JsMap α} {k : String} {p : String × α}
    (h : p ∈ jsDelete l k) : p ∈ l := by
  induction l with
  | nil => simp [jsDelete] at h
  | cons q t ih =>
    obtain ⟨k1, v1⟩ := q
    by_cases h1 : k1 = k
    · rw [jsDelete, if_pos h1] at h
      exact List.mem_cons_of_mem _ (ih h)
    · rw [jsDelete, if_neg h1] at h
      rcases List.mem_cons.mp h with heq | hmem
      · exact heq ▸ List.mem_cons_self _ _
      · exact List.mem_cons_of_mem _ (ih hmem)

theorem eq_nil_of_jsGet_none {α : Type} {l : JsMap α}
    (h : ∀ k, jsGet l k = none) : l = [] := by
  cases l with
  | nil => rfl
  | cons p t =>
    obtain ⟨k1, v1⟩ := p
    have := h k1
    simp [jsGet] at this

theorem mem_values {α : Type} {l : JsMap α} {v : α} :
    v ∈ values l ↔ ∃ k, (k, v) ∈ l := by
  constructor
  · intro h
    rw [values, List.mem_map] at h
    obtain ⟨⟨k, v2⟩, hm, hv⟩ := h
    have hv2 : v2 = v := hv
    subst hv2
    exact ⟨k, hm⟩
  · rintro ⟨k, hm⟩
    rw [values, List.mem_map]
    exact ⟨(k, v), hm, rfl⟩

theorem keys_jsSet_of_mem {α : Type} {l : JsMap α} {k : String} (v : α)
    (h : k ∈ keys l) : keys (jsSet l k v) = keys l := by
  induction l with
  | nil => simp [keys_nil] at h
  | cons p t ih =>
    obtain ⟨k1, v1⟩ := p
    rw [keys_cons, List.mem_cons] at h
    by_cases h1 : k1 = k
    · simp only [jsSet, if_pos h1, keys_cons]
    · have hmem : k ∈ keys t := by
        rcases h with he | hm
        · exact absurd he.symm h1
        · exact hm
      simp only [jsSet, if_neg h1, keys_cons, ih hmem]

theorem keys_jsSet_of_not_mem {α : Type} {l : JsMap α} {k : String} (v : α)
    (h : k ∉ keys l) : keys (jsSet l k v) = keys l ++ [k] := by
  induction l with
  | nil => simp [jsSet, keys]
  | cons p t ih =>
    obtain ⟨k1, v1⟩ := p
    rw [keys_cons, List.mem_cons] at h
    push_neg at h
    have h1 : k1 ≠ k := fun he => h.1 he.symm
    simp only [jsSet, if_neg h1, keys_cons, ih h.2, List.cons_append]

theorem nodup_keys_jsSet {α : Type} {l : JsMap α} (k : String) (v : α)
    (hd : (keys l).Nodup) : (keys (jsSet l k v)).Nodup := by
  by_cases h : k ∈ keys l
  · rw [keys_jsSet_of_mem v h]; exact hd
  · rw [keys_jsSet_of_not_mem v h, List.nodup_append]
    refine ⟨hd, List.nodup_singleton k, ?_⟩
    intro a ha hk2
    rw [List.mem_singleton] at hk2
    exact h (hk2 ▸ ha)

theorem keys_jsDelete_sublist {α : Type} (l : JsMap α) (k : String) :
    (keys (jsDelete l k)).Sublist (keys l) := by
  induction l with
  | nil => simp [jsDelete, keys_nil]
  | cons p t ih =>
    obtain ⟨k1, v1⟩ := p
    by_cases h1 : k1 = k
    · rw [jsDelete, if_pos h1, keys_cons]
      exact ih.trans (List.sublist_cons_self _ _)
    · rw [jsDelete, if_neg h1, keys_cons, keys_cons]
      exact ih.cons₂ _

theorem nodup_keys_jsDelete {α : Type} {l : JsMap α} (k : String)
    (hd : (keys l).Nodup) : (keys (jsDelete l k)).Nodup :=
  (keys_jsDelete_sublist l k).nodup hd

/-!
Data model. `Component` carries the capability contract the registry reads
(`id`, `type`, `scene`, `model`, `entityType`, `guid`, `isObject`, `isMesh`).
Scenes and models are identified by numeric ids; `scene` and `model` are the
back-references `component.scene` / `component.model` (the latter holding the
owning registry's id, `none` when unowned). Optional string fields use
`Option String`, with `none` for the JS-falsy absent value.
-/

structure Component where
  id : String
  type : String
  sceneId : Nat
  model : Option Nat
  entityType : Option String
  guid : Option String
  isObject : Bool
  isMesh : Bool
deriving DecidableEq, Repr

/-- Configuration value passed to `_addComponent` (case (b)): only its `type`
tag is read by the registry (`component.type || "Component"`). -/
structure Cfg where
  type : Option String
deriving DecidableEq, Repr

/-- Modelled from the spec: the owning-scope service ("Scene", §6), external
to `src/`. It provides the ambient id lookup `scene.components`, the global
component-type registry `core.isComponentType` (as `knownTypes`), and the
factory `new window[type](scene, cfg)` (as `factory`). -/
structure Scene where
  sceneId : Nat
  components : JsMap Component
  knownTypes : List String
  factory : String → Cfg → Component

/-- The registry state: the fields initialised in `Model.init` (Model.js
lines 78-168). The three `Option (List String)` fields are the lazy caches
`this._objectGUIDs`, `this._entityIds`, `this._entityTypeIds` (`none` models
the JS-falsy `null`/`undefined`). -/
structure Model where
  id : Nat
  sceneId : Nat
  components : JsMap Component
  numComponents : Nat
  types : JsMap (JsMap Component)
  objects : JsMap Component
  guidObjects : JsMap Component
  meshes : JsMap Component
  entities : JsMap Component
  entityTypes : JsMap (JsMap Component)
  _objectGUIDs : Option (List String)
  _entityIds : Option (List String)
  _entityTypeIds : Option (List String)
deriving DecidableEq, Repr

/-- A freshly initialised registry (Model.js `init`, lines 70-176; the
`scene._modelCreated` notification is external and carries no registry
state). -/
def initModel (mid sid : Nat) : Model :=
  { id := mid, sceneId := sid, components := [], numComponents := 0,
    types := [], objects := [], guidObjects := [], meshes := [],
    entities := [], entityTypes := [],
    _objectGUIDs := none, _entityIds := none, _entityTypeIds := none }

/-- The successful attach path of `_addComponent` (Model.js lines 205-235),
written field-by-field; each field's update matches the imperative
assignments, which touch distinct fields and read only pre-state (the one
cross-read, `this.types` at line 206, happens before any write to `types`).
The stored component is the same object the caller passed, whose `model`
back-reference `component._addedToModel(this)` (line 234) sets to this
registry — modelled from the spec: "Sets the component's `model`
back-reference to this registry" (§4.1); `_addedToModel` lives outside
`src/`. Note line 226 keys `guidObjects` by `object.id`, not by the guid. -/
def attachComponent (m : Model) (c0 : Component) : Model :=
  let c : Component := { c0 with model := some m.id }
  { m with
    components := jsSet m.components c.id c
    types := jsSet m.types c.type (jsSet ((jsGet m.types c.type).getD []) c.id c)
    objects := if c.isObject then jsSet m.objects c.id c else m.objects
    entities := if c.isObject && c.entityType.isSome then jsSet m.entities c.id c
      else m.entities
    entityTypes :=
      if c.isObject then
        match c.entityType with
        | some et =>
            jsSet m.entityTypes et (jsSet ((jsGet m.entityTypes et).getD []) c.id c)
        | none => m.entityTypes
      else m.entityTypes
    guidObjects := if c.isObject && c.guid.isSome then jsSet m.guidObjects c.id c
      else m.guidObjects
    meshes := if c.isObject && c.isMesh then jsSet m.meshes c.id c else m.meshes
    numComponents := m.numComponents + 1
    _entityIds := if c.isObject && c.entityType.isSome then none else m._entityIds
    _entityTypeIds := if c.isObject && c.entityType.isSome then none
      else m._entityTypeIds
    _objectGUIDs := if c.isObject && c.guid.isSome then none else m._objectGUIDs }

/-- `_removeComponent` (Model.js lines 238-256), field-by-field. It deletes
`components[id]`, `meshes[id]`, `objects[id]` unconditionally; under
`component.entityType` it deletes `entities[id]` and the entry in
`entityTypes[entityType]` and nulls the two entity caches; under
`component.guid` it deletes `guidObjects[component.guid]` — keyed by the
guid, unlike the insertion — and nulls the guid cache. It touches neither
`types` nor `numComponents` nor the component's `model` back-reference. -/
def _removeComponent (m : Model) (c : Component) : Model :=
  { m with
    components := jsDelete m.components c.id
    meshes := jsDelete m.meshes c.id
    objects := jsDelete m.objects c.id
    entities := if c.entityType.isSome then jsDelete m.entities c.id else m.entities
    entityTypes :=
      match c.entityType with
      | some et =>
          match jsGet m.entityTypes et with
          | some sub => jsSet m.entityTypes et (jsDelete sub c.id)
          | none => m.entityTypes
      | none => m.entityTypes
    guidObjects :=
      match c.guid with
      | some g => jsDelete m.guidObjects g
      | none => m.guidObjects
    _entityIds := if c.entityType.isSome then none else m._entityIds
    _entityTypeIds := if c.entityType.isSome then none else m._entityTypeIds
    _objectGUIDs := if c.guid.isSome then none else m._objectGUIDs }

/-- The three ways a value reaches `_addComponent` (Model.js lines 179-194):
an id to resolve in the scene, a configuration to instantiate, or an
already-instantiated component. -/
inductive AddRef where
  | byId (i : String)
  | byConfig (cfg : Cfg)
  | byComp (c : Component)
deriving Repr

/-- The resolution prefix of `_addComponent` (lines 181-194): id lookup in
`this.scene.components`, or factory construction after the
`core.isComponentType` check; `none` is the logged-and-return failure. -/
def resolve (scene : Scene) (ref : AddRef) : Option Component :=
  match ref with
  | .byId i => jsGet scene.components i
  | .byConfig cfg =>
      let t := cfg.type.getD "Component"
      if scene.knownTypes.contains t then some (scene.factory t cfg) else none
  | .byComp c => some c

/-- `_addComponent` (Model.js lines 178-236) as observed on this registry:
resolution, the scene check (line 195), the already-present no-op
(line 199), then attach. The cross-registry detach of line 203
(`component.model._removeComponent(component)`) mutates only the other
registry, so it does not appear in this single-registry state function; the
two-registry transfer is `transferAdd` below. Returns the attached component
(line 235) or `none` on any early `return`. -/
def _addComponent (scene : Scene) (m : Model) (ref : AddRef) :
    Model × Option Component :=
  match resolve scene ref with
  | none => (m, none)
  | some c =>
      if c.sceneId ≠ m.sceneId then (m, none)
      else if (jsGet m.components c.id).isSome then (m, none)
      else (attachComponent m c, some { c with model := some m.id })

/-- Two-registry view of `b._addComponent(component)` for a component whose
`model` back-reference names registry `a` (Model.js lines 195-235): on the
ownership-transfer branch (lines 202-204) the old registry is detached via
its `_removeComponent` before the attach here. Returns the updated
`(a, b)`. -/
def transferAdd (a b : Model) (c : Component) : Model × Model :=
  if c.sceneId ≠ b.sceneId then (a, b)
  else if (jsGet b.components c.id).isSome then (a, b)
  else
    match c.model with
    | some mid =>
        if mid ≠ b.id then (_removeComponent a c, attachComponent b c)
        else (a, attachComponent b c)
    | none => (a, attachComponent b c)

/-!
Bulk destruction. Each `component.destroy()` call in `clear`'s loops is
external code (`Component.js` / `Group.js`, outside `src/`); modelled from
the spec: "a `destroy()` operation (triggers self-removal from its current
registry as part of teardown)" (§6), i.e. it calls back into this
registry's `_removeComponent`. `destroyAll` folds that self-removal over a
snapshot of the iterated values, guarded by `sel`, which says whether a
given component's teardown actually self-removes (`clear` below uses the
contractual `sel = true`; `clearWith` keeps it a parameter to reason about
misbehaving teardowns).
-/

def destroyAll (sel : Component → Bool) (m : Model) (cs : List Component) : Model :=
  cs.foldl (fun acc c => if sel c then _removeComponent acc c else acc) m

/-- `clear` (Model.js lines 262-281) with the self-removal behaviour of each
destroyed component's teardown as the parameter `sel`: first loop destroys
`this.meshes` (line 265), second loop destroys the remaining
`this.components` (line 270), then lines 275-280 reset `components`,
`numComponents`, `types`, `objects`, `meshes`, `entities` — and only
those. -/
def clearWith (sel : Component → Bool) (m : Model) : Model :=
  let m1 := destroyAll sel m (values m.meshes)
  let m2 := destroyAll sel m1 (values m1.components)
  { m2 with components := [], numComponents := 0, types := [],
            objects := [], meshes := [], entities := [] }

/-- `clear` under the spec's teardown contract: every destroyed component
self-removes. -/
def clear (m : Model) : Model := clearWith (fun _ => true) m

/-- The sequence of components receiving a destroy notification during one
`clear()` call, in order: the mesh loop over `this.meshes` (line 265), then
the loop over what remains of `this.components` after the meshes
self-removed (line 270). -/
def clearDestroySeq (m : Model) : List Component :=
  values m.meshes ++ values (destroyAll (fun _ => true) m (values m.meshes)).components

/-- The lazy getter `get entityIds` (Model.js lines 315-320): returns the
cache when set, else rebuilds it from `Object.keys(this.entities)`. The
returned `Model` is the post-read state (the getter mutates the cache). -/
def entityIds (m : Model) : Model × List String :=
  match m._entityIds with
  | some ids => (m, ids)
  | none => ({ m with _entityIds := some (keys m.entities) }, keys m.entities)

/-- The lazy getter `get entityTypeIds` (Model.js lines 302-307). -/
def entityTypeIds (m : Model) : Model × List String :=
  match m._entityTypeIds with
  | some ids => (m, ids)
  | none => ({ m with _entityTypeIds := some (keys m.entityTypes) }, keys m.entityTypes)

/-- The lazy getter `get objectGUIDs` (Model.js lines 289-294). -/
def objectGUIDs (m : Model) : Model × List String :=
  match m._objectGUIDs with
  | some ids => (m, ids)
  | none => ({ m with _objectGUIDs := some (keys m.guidObjects) }, keys m.guidObjects)

/-!
Concrete fixtures used to evaluate the registry operations. Each pair is a
component as the caller passes it (`model := none`) and the same component
as stored after attach, with the back-reference set by the registry.
-/

/-- An object with a guid differing from its id. -/
def gObj : Component :=
  { id := "o1", type := "Object", sceneId := 0, model := none,
    entityType := none, guid := some "G-1", isObject := true, isMesh := false }

/-- `gObj` as stored in registry 1. -/
def gObjA : Component := { gObj with model := some 1 }

/-- A plain (non-object) component. -/
def plainComp : Component :=
  { id := "c1", type := "Component", sceneId := 0, model := none,
    entityType := none, guid := none, isObject := false, isMesh := false }

/-- `plainComp` as stored in registry 1. -/
def plainCompA : Component := { plainComp with model := some 1 }

/-- A mesh component carrying a guid. -/
def meshComp : Component :=
  { id := "m1", type := "Mesh", sceneId := 0, model := none,
    entityType := none, guid := some "G-7", isObject := true, isMesh := true }

/-- `meshComp` as stored in registry 1. -/
def meshCompA : Component := { meshComp with model := some 1 }

/-- An entity-classified object carrying a guid. -/
def wallObj : Component :=
  { id := "w1", type := "Object", sceneId := 0, model := none,
    entityType := some "wall", guid := some "G-9", isObject := true,
    isMesh := false }

/-- Claim C1 (code bug). The `guidObjects` index is keyed inconsistently:
attach (line 226) inserts under the component's id, so after attaching an
object whose guid is "G-1" and id "o1" there is no entry under the guid and
one under the id; and `_removeComponent` (line 253) deletes under the guid,
so removing the component deletes nothing and the id-keyed entry survives
even though the component is gone from `components`. -/
theorem guidObjects_key_mismatch :
    jsGet (attachComponent (initModel 1 0) gObj).guidObjects "G-1" = none
    ∧ jsGet (attachComponent (initModel 1 0) gObj).guidObjects "o1" = some gObjA
    ∧ jsGet (_removeComponent (attachComponent (initModel 1 0) gObj) gObjA).guidObjects
        "o1" = some gObjA
    ∧ jsGet (_removeComponent (attachComponent (initModel 1 0) gObj) gObjA).components
        "o1" = none := by
  decide

/-- Claim C2 (code bug). `_removeComponent` never decrements
`numComponents`: after one attach and one remove the registry holds no
components but still reports a count of 1. -/
theorem remove_keeps_numComponents :
    (_removeComponent (attachComponent (initModel 1 0) plainComp) plainCompA).numComponents
      = 1
    ∧ (_removeComponent (attachComponent (initModel 1 0) plainComp) plainCompA).components
      = [] := by
  decide

/-- Claim C3 (code bug). Transferring `meshComp` from registry A (id 1) to
registry B (id 2) leaves two stale traces in A: the `types["Mesh"]` sub-map
still contains the component (nothing in `_removeComponent` touches
`types`), and the guid-index entry keyed by the id "m1" survives because
the removal deletes under the guid "G-7". The component is meanwhile fully
attached to B with its `model` back-reference naming B. -/
theorem transfer_leaves_stale_entries :
    ((transferAdd (attachComponent (initModel 1 0) meshComp) (initModel 2 0)
        meshCompA).1).components = []
    ∧ jsGet ((transferAdd (attachComponent (initModel 1 0) meshComp) (initModel 2 0)
        meshCompA).1).types "Mesh" = some [("m1", meshCompA)]
    ∧ jsGet ((transferAdd (attachComponent (initModel 1 0) meshComp) (initModel 2 0)
        meshCompA).1).guidObjects "m1" = some meshCompA
    ∧ jsGet ((transferAdd (attachComponent (initModel 1 0) meshComp) (initModel 2 0)
        meshCompA).2).components "m1" = some { meshCompA with model := some 2 } := by
  decide

/-- Claim C4 (counterexample). After `clear()` on a registry holding one
entity-classified, guid-bearing object — destroyed with the contractual
self-removal — `entityTypes` still holds the (emptied) "wall" sub-map and
`guidObjects` still holds the stale id-keyed entry: lines 275-280 reset
only `components`, `numComponents`, `types`, `objects`, `meshes`,
`entities`. -/
theorem clear_leaves_entityTypes_nonempty :
    (clear (attachComponent (initModel 1 0) wallObj)).entityTypes ≠ []
    ∧ (clear (attachComponent (initModel 1 0) wallObj)).guidObjects ≠ [] := by
  decide

/-- Claim C4 (amended). After `clear()` returns — whatever subset of the
destroyed components' teardowns actually self-removed — `components`,
`types`, `objects`, `meshes`, `entities` are empty and `numComponents` is
zero; `entityTypes` and `guidObjects` are not among the maps the reset
block clears. -/
theorem clearWith_resets_core_maps (sel : Component → Bool) (m : Model) :
    (clearWith sel m).components = [] ∧ (clearWith sel m).numComponents = 0
    ∧ (clearWith sel m).types = [] ∧ (clearWith sel m).objects = []
    ∧ (clearWith sel m).meshes = [] ∧ (clearWith sel m).entities = [] :=
  ⟨rfl, rfl, rfl, rfl, rfl, rfl⟩

/-- Claim C5 (code bug). After removing the only component of type "Mesh",
the `types["Mesh"]` sub-map still contains the entry for its id:
`_removeComponent` (lines 238-256) deletes from every other index but never
from `types`. -/
theorem remove_leaves_types_entry :
    jsGet (_removeComponent (attachComponent (initModel 1 0) meshComp) meshCompA).components
      "m1" = none
    ∧ jsGet (_removeComponent (attachComponent (initModel 1 0) meshComp) meshCompA).types
      "Mesh" = some [("m1", meshCompA)] := by
  decide

/-- A scene with no registered components and no known component types. -/
def scene0 : Scene :=
  { sceneId := 0, components := [], knownTypes := [],
    factory := fun _ _ => plainComp }

/-- Claim C7. When the component's id is already a key of `components`, the
`_addComponent` call mutates nothing and returns nothing: the
already-present check at line 199 (and, when the scene check at line 195
fires first, that check too) returns before any write. -/
theorem add_idempotent (scene : Scene) (m : Model) (c : Component)
    (h : (jsGet m.components c.id).isSome = true) :
    _addComponent scene m (.byComp c) = (m, none) := by
  unfold _addComponent resolve
  by_cases hs : c.sceneId = m.sceneId
  · simp [hs, h]
  · simp [hs]

/-- Witness for C7: re-adding the stored `plainComp` to the registry that
holds it returns the registry unchanged and no component. -/
theorem add_idempotent_witness :
    _addComponent scene0 (attachComponent (initModel 1 0) plainComp)
        (.byComp plainCompA)
      = (attachComponent (initModel 1 0) plainComp, none) :=
  add_idempotent scene0 (attachComponent (initModel 1 0) plainComp) plainCompA
    (by decide)

/-- The failure conditions of `_addComponent` named by claim C8: an id that
resolves to no component, a configuration whose type tag is not a known
component kind (both are `resolve = none`), or a resolved component whose
scene differs from the registry's. -/
def addFailure (scene : Scene) (m : Model) (ref : AddRef) : Prop :=
  resolve scene ref = none
  ∨ ∃ c, resolve scene ref = some c ∧ c.sceneId ≠ m.sceneId

/-- Claim C8. Every failing `_addComponent` call returns no component and
leaves the registry state — every index map, `numComponents`, and the three
projection caches — exactly as it was: all three early returns (lines 184,
190, 196) happen before the first mutation at line 205. -/
theorem add_failure_no_mutation (scene : Scene) (m : Model) (ref : AddRef)
    (h : addFailure scene m ref) :
    _addComponent scene m ref = (m, none) := by
  unfold _addComponent
  rcases h with hn | ⟨c, hc, hs⟩
  · rw [hn]
  · rw [hc]
    simp [hs]

/-- Witness for C8: adding the unresolvable id "ghost" to a fresh registry
returns the registry unchanged and no component. -/
theorem add_failure_no_mutation_witness :
    _addComponent scene0 (initModel 1 0) (.byId "ghost") = (initModel 1 0, none) :=
  add_failure_no_mutation scene0 (initModel 1 0) (.byId "ghost") (Or.inl rfl)

/-!
Projection lemmas: each field of the post-state of `attachComponent` and
`_removeComponent`, read off the definitions.
-/

theorem attach_components (m : Model) (c0 : Component) :
    (attachComponent m c0).components
      = jsSet m.components c0.id { c0 with model := some m.id } := rfl

theorem attach_objects (m : Model) (c0 : Component) :
    (attachComponent m c0).objects
      = if c0.isObject then jsSet m.objects c0.id { c0 with model := some m.id }
        else m.objects := rfl

theorem attach_entities (m : Model) (c0 : Component) :
    (attachComponent m c0).entities
      = if c0.isObject && c0.entityType.isSome
        then jsSet m.entities c0.id { c0 with model := some m.id }
        else m.entities := rfl

theorem attach_meshes (m : Model) (c0 : Component) :
    (attachComponent m c0).meshes
      = if c0.isObject && c0.isMesh
        then jsSet m.meshes c0.id { c0 with model := some m.id }
        else m.meshes := rfl

theorem attach_entityTypes (m : Model) (c0 : Component) :
    (attachComponent m c0).entityTypes
      = if c0.isObject then
          match c0.entityType with
          | some et => jsSet m.entityTypes et
              (jsSet ((jsGet m.entityTypes et).getD []) c0.id
                { c0 with model := some m.id })
          | none => m.entityTypes
        else m.entityTypes := rfl

theorem attach_guidObjects (m : Model) (c0 : Component) :
    (attachComponent m c0).guidObjects
      = if c0.isObject && c0.guid.isSome
        then jsSet m.guidObjects c0.id { c0 with model := some m.id }
        else m.guidObjects := rfl

theorem attach_entityIdsCache (m : Model) (c0 : Component) :
    (attachComponent m c0)._entityIds
      = if c0.isObject && c0.entityType.isSome then none else m._entityIds := rfl

theorem attach_entityTypeIdsCache (m : Model) (c0 : Component) :
    (attachComponent m c0)._entityTypeIds
      = if c0.isObject && c0.entityType.isSome then none else m._entityTypeIds := rfl

theorem attach_objectGUIDsCache (m : Model) (c0 : Component) :
    (attachComponent m c0)._objectGUIDs
      = if c0.isObject && c0.guid.isSome then none else m._objectGUIDs := rfl

theorem remove_components (m : Model) (c : Component) :
    (_removeComponent m c).components = jsDelete m.components c.id := rfl

theorem remove_meshes (m : Model) (c : Component) :
    (_removeComponent m c).meshes = jsDelete m.meshes c.id := rfl

theorem remove_objects (m : Model) (c : Component) :
    (_removeComponent m c).objects = jsDelete m.objects c.id := rfl

theorem remove_entities (m : Model) (c : Component) :
    (_removeComponent m c).entities
      = if c.entityType.isSome then jsDelete m.entities c.id else m.entities := rfl

theorem remove_types (m : Model) (c : Component) :
    (_removeComponent m c).types = m.types := rfl

theorem remove_numComponents (m : Model) (c : Component) :
    (_removeComponent m c).numComponents = m.numComponents := rfl

theorem remove_entityIdsCache (m : Model) (c : Component) :
    (_removeComponent m c)._entityIds
      = if c.entityType.isSome then none else m._entityIds := rfl

theorem remove_entityTypeIdsCache (m : Model) (c : Component) :
    (_removeComponent m c)._entityTypeIds
      = if c.entityType.isSome then none else m._entityTypeIds := rfl

theorem remove_objectGUIDsCache (m : Model) (c : Component) :
    (_removeComponent m c)._objectGUIDs
      = if c.guid.isSome then none else m._objectGUIDs := rfl

theorem remove_entityTypes_of_none {m : Model} {c : Component}
    (h : c.entityType = none) :
    (_removeComponent m c).entityTypes = m.entityTypes := by
  unfold _removeComponent
  simp only [h]

theorem remove_guidObjects_of_none {m : Model} {c : Component}
    (h : c.guid = none) :
    (_removeComponent m c).guidObjects = m.guidObjects := by
  unfold _removeComponent
  simp only [h]

/-!
The registry invariant tying the derived indices to the primary store, plus
freshness of the three lazy caches. `guidObjects` appears only in the cache
clause: the guid-key inconsistency documented at `guidObjects_key_mismatch`
prevents any stronger relation between it and `components`.
-/

structure WF (m : Model) : Prop where
  compKeysNodup : (keys m.components).Nodup
  meshKeysNodup : (keys m.meshes).Nodup
  compId : ∀ k c, jsGet m.components k = some c → c.id = k
  objSub : ∀ k c, jsGet m.objects k = some c →
    jsGet m.components k = some c ∧ c.isObject = true
  meshSub : ∀ k c, jsGet m.meshes k = some c →
    jsGet m.objects k = some c ∧ c.isMesh = true
  entSub : ∀ k c, jsGet m.entities k = some c →
    jsGet m.objects k = some c ∧ c.entityType.isSome = true
  meshRev : ∀ k c, jsGet m.components k = some c → c.isObject = true →
    c.isMesh = true → jsGet m.meshes k = some c
  freshE : ∀ l, m._entityIds = some l → l = keys m.entities
  freshET : ∀ l, m._entityTypeIds = some l → l = keys m.entityTypes
  freshG : ∀ l, m._objectGUIDs = some l → l = keys m.guidObjects

theorem WF_initModel (mid sid : Nat) : WF (initModel mid sid) := by
  constructor <;> simp [initModel, keys_nil, jsGet]

theorem attach_components_jsGet_self (m : Model) (c0 : Component) :
    jsGet (attachComponent m c0).components c0.id
      = some { c0 with model := some m.id } := by
  rw [attach_components, jsGet_jsSet, if_pos rfl]

theorem attach_components_jsGet_ne {m : Model} {c0 : Component} {k : String}
    (h : c0.id ≠ k) :
    jsGet (attachComponent m c0).components k = jsGet m.components k := by
  rw [attach_components, jsGet_jsSet, if_neg h]

theorem attach_ne_of_old {m : Model} {c0 : Component} {k : String} {d : Component}
    (habs : jsGet m.components c0.id = none)
    (hold : jsGet m.components k = some d) : c0.id ≠ k := by
  intro heq
  subst heq
  rw [hold] at habs
  simp at habs

theorem attach_objects_preserve {m : Model} {c0 : Component} {k : String}
    {d : Component} (hwf : WF m) (habs : jsGet m.components c0.id = none)
    (hold : jsGet m.objects k = some d) :
    jsGet (attachComponent m c0).objects k = some d := by
  have hne : c0.id ≠ k := attach_ne_of_old habs (hwf.objSub k d hold).1
  rw [attach_objects]
  by_cases hO : c0.isObject = true
  · rw [if_pos hO, jsGet_jsSet, if_neg hne]
    exact hold
  · rw [if_neg hO]
    exact hold

theorem WF_attach {m : Model} {c0 : Component} (hwf : WF m)
    (habs : jsGet m.components c0.id = none) : WF (attachComponent m c0) := by
  refine ⟨?_, ?_, ?_, ?_, ?_, ?_, ?_, ?_, ?_, ?_⟩
  · rw [attach_components]
    exact nodup_keys_jsSet _ _ hwf.compKeysNodup
  · rw [attach_meshes]
    by_cases hb : (c0.isObject && c0.isMesh) = true
    · rw [if_pos hb]
      exact nodup_keys_jsSet _ _ hwf.meshKeysNodup
    · rw [if_neg hb]
      exact hwf.meshKeysNodup
  · intro k d hd
    by_cases he : c0.id = k
    · rw [← he, attach_components_jsGet_self] at hd
      rw [← Option.some.inj hd]
      exact he
    · rw [attach_components_jsGet_ne he] at hd
      exact hwf.compId k d hd
  · intro k d hd
    rw [attach_objects] at hd
    by_cases hO : c0.isObject = true
    · rw [if_pos hO, jsGet_jsSet] at hd
      by_cases he : c0.id = k
      · rw [if_pos he] at hd
        refine ⟨?_, ?_⟩
        · rw [← he, attach_components_jsGet_self]
          exact hd
        · rw [← Option.some.inj hd]
          exact hO
      · rw [if_neg he] at hd
        exact ⟨by rw [attach_components_jsGet_ne he]; exact (hwf.objSub k d hd).1,
               (hwf.objSub k d hd).2⟩
    · rw [if_neg hO] at hd
      have hne : c0.id ≠ k := attach_ne_of_old habs (hwf.objSub k d hd).1
      exact ⟨by rw [attach_components_jsGet_ne hne]; exact (hwf.objSub k d hd).1,
             (hwf.objSub k d hd).2⟩
  · intro k d hd
    rw [attach_meshes] at hd
    by_cases hb : (c0.isObject && c0.isMesh) = true
    · obtain ⟨hO, hM⟩ := Bool.and_eq_true_iff.mp hb
      rw [if_pos hb, jsGet_jsSet] at hd
      by_cases he : c0.id = k
      · rw [if_pos he] at hd
        refine ⟨?_, ?_⟩
        · rw [← he, attach_objects, if_pos hO, jsGet_jsSet, if_pos rfl]
          exact hd
        · rw [← Option.some.inj hd]
          exact hM
      · rw [if_neg he] at hd
        exact ⟨attach_objects_preserve hwf habs (hwf.meshSub k d hd).1,
               (hwf.meshSub k d hd).2⟩
    · rw [if_neg hb] at hd
      exact ⟨attach_objects_preserve hwf habs (hwf.meshSub k d hd).1,
             (hwf.meshSub k d hd).2⟩
  · intro k d hd
    rw [attach_entities] at hd
    by_cases hb : (c0.isObject && c0.entityType.isSome) = true
    · obtain ⟨hO, hE⟩ := Bool.and_eq_true_iff.mp hb
      rw [if_pos hb, jsGet_jsSet] at hd
      by_cases he : c0.id = k
      · rw [if_pos he] at hd
        refine ⟨?_, ?_⟩
        · rw [← he, attach_objects, if_pos hO, jsGet_jsSet, if_pos rfl]
          exact hd
        · rw [← Option.some.inj hd]
          exact hE
      · rw [if_neg he] at hd
        exact ⟨attach_objects_preserve hwf habs (hwf.entSub k d hd).1,
               (hwf.entSub k d hd).2⟩
    · rw [if_neg hb] at hd
      exact ⟨attach_objects_preserve hwf habs (hwf.entSub k d hd).1,
             (hwf.entSub k d hd).2⟩
  · intro k d hd hO hM
    by_cases he : c0.id = k
    · rw [← he, attach_components_jsGet_self] at hd
      have hdX := Option.some.inj hd
      have hO0 : c0.isObject = true := by rw [← hdX] at hO; exact hO
      have hM0 : c0.isMesh = true := by rw [← hdX] at hM; exact hM
      have hb : (c0.isObject && c0.isMesh) = true :=
        Bool.and_eq_true_iff.mpr ⟨hO0, hM0⟩
      rw [← he, attach_meshes, if_pos hb, jsGet_jsSet, if_pos rfl]
      exact congrArg some hdX
    · rw [attach_components_jsGet_ne he] at hd
      have hold := hwf.meshRev k d hd hO hM
      rw [attach_meshes]
      by_cases hb : (c0.isObject && c0.isMesh) = true
      · rw [if_pos hb, jsGet_jsSet, if_neg he]
        exact hold
      · rw [if_neg hb]
        exact hold
  · intro l hl
    rw [attach_entityIdsCache] at hl
    by_cases hb : (c0.isObject && c0.entityType.isSome) = true
    · rw [if_pos hb] at hl
      exact absurd hl (by simp)
    · rw [if_neg hb] at hl
      rw [attach_entities, if_neg hb]
      exact hwf.freshE l hl
  · intro l hl
    rw [attach_entityTypeIdsCache] at hl
    by_cases hb : (c0.isObject && c0.entityType.isSome) = true
    · rw [if_pos hb] at hl
      exact absurd hl (by simp)
    · rw [if_neg hb] at hl
      rw [attach_entityTypes]
      by_cases hO : c0.isObject = true
      · cases hET : c0.entityType with
        | some et =>
            exact absurd (Bool.and_eq_true_iff.mpr ⟨hO, by rw [hET]; rfl⟩) hb
        | none =>
            rw [if_pos hO]
            simp only [hET]
            exact hwf.freshET l hl
      · rw [if_neg hO]
        exact hwf.freshET l hl
  · intro l hl
    rw [attach_objectGUIDsCache] at hl
    by_cases hb : (c0.isObject && c0.guid.isSome) = true
    · rw [if_pos hb] at hl
      exact absurd hl (by simp)
    · rw [if_neg hb] at hl
      rw [attach_guidObjects, if_neg hb]
      exact hwf.freshG l hl

theorem WF_remove {m : Model} {c : Component} (hwf : WF m)
    (hc : jsGet m.components c.id = some c ∨ jsGet m.components c.id = none) :
    WF (_removeComponent m c) := by
  refine ⟨?_, ?_, ?_, ?_, ?_, ?_, ?_, ?_, ?_, ?_⟩
  · rw [remove_components]
    exact nodup_keys_jsDelete _ hwf.compKeysNodup
  · rw [remove_meshes]
    exact nodup_keys_jsDelete _ hwf.meshKeysNodup
  · intro k d hd
    rw [remove_components, jsGet_jsDelete] at hd
    by_cases he : c.id = k
    · rw [if_pos he] at hd
      exact absurd hd (by simp)
    · rw [if_neg he] at hd
      exact hwf.compId k d hd
  · intro k d hd
    rw [remove_objects, jsGet_jsDelete] at hd
    by_cases he : c.id = k
    · rw [if_pos he] at hd
      exact absurd hd (by simp)
    · rw [if_neg he] at hd
      exact ⟨by rw [remove_components, jsGet_jsDelete, if_neg he]
                exact (hwf.objSub k d hd).1,
             (hwf.objSub k d hd).2⟩
  · intro k d hd
    rw [remove_meshes, jsGet_jsDelete] at hd
    by_cases he : c.id = k
    · rw [if_pos he] at hd
      exact absurd hd (by simp)
    · rw [if_neg he] at hd
      exact ⟨by rw [remove_objects, jsGet_jsDelete, if_neg he]
                exact (hwf.meshSub k d hd).1,
             (hwf.meshSub k d hd).2⟩
  · intro k d hd
    rw [remove_entities] at hd
    by_cases hb : c.entityType.isSome = true
    · rw [if_pos hb, jsGet_jsDelete] at hd
      by_cases he : c.id = k
      · rw [if_pos he] at hd
        exact absurd hd (by simp)
      · rw [if_neg he] at hd
        exact ⟨by rw [remove_objects, jsGet_jsDelete, if_neg he]
                  exact (hwf.entSub k d hd).1,
               (hwf.entSub k d hd).2⟩
    · rw [if_neg hb] at hd
      have he : c.id ≠ k := by
        intro heq
        subst heq
        have hobj := (hwf.entSub _ d hd).1
        have hcomp := (hwf.objSub _ d hobj).1
        rcases hc with hsome | hnone
        · rw [hcomp] at hsome
          have hdc : d = c := Option.some.inj hsome
          rw [hdc] at hd
          exact hb ((hwf.entSub _ c hd).2)
        · rw [hcomp] at hnone
          exact absurd hnone (by simp)
      exact ⟨by rw [remove_objects, jsGet_jsDelete, if_neg he]
                exact (hwf.entSub k d hd).1,
             (hwf.entSub k d hd).2⟩
  · intro k d hd hO hM
    rw [remove_components, jsGet_jsDelete] at hd
    by_cases he : c.id = k
    · rw [if_pos he] at hd
      exact absurd hd (by simp)
    · rw [if_neg he] at hd
      rw [remove_meshes, jsGet_jsDelete, if_neg he]
      exact hwf.meshRev k d hd hO hM
  · intro l hl
    rw [remove_entityIdsCache] at hl
    by_cases hb : c.entityType.isSome = true
    · rw [if_pos hb] at hl
      exact absurd hl (by simp)
    · rw [if_neg hb] at hl
      rw [remove_entities, if_neg hb]
      exact hwf.freshE l hl
  · intro l hl
    rw [remove_entityTypeIdsCache] at hl
    by_cases hb : c.entityType.isSome = true
    · rw [if_pos hb] at hl
      exact absurd hl (by simp)
    · rw [if_neg hb] at hl
      have hn : c.entityType = none := Option.not_isSome_iff_eq_none.mp hb
      rw [remove_entityTypes_of_none hn]
      exact hwf.freshET l hl
  · intro l hl
    rw [remove_objectGUIDsCache] at hl
    by_cases hb : c.guid.isSome = true
    · rw [if_pos hb] at hl
      exact absurd hl (by simp)
    · rw [if_neg hb] at hl
      have hn : c.guid = none := Option.not_isSome_iff_eq_none.mp hb
      rw [remove_guidObjects_of_none hn]
      exact hwf.freshG l hl

theorem destroyAll_nil (sel : Component → Bool) (m : Model) :
    destroyAll sel m [] = m := rfl

theorem destroyAll_cons (sel : Component → Bool) (m : Model) (c : Component)
    (cs : List Component) :
    destroyAll sel m (c :: cs)
      = destroyAll sel (if sel c then _removeComponent m c else m) cs := rfl

theorem remove_components_jsGet (m : Model) (c : Component) (k : String) :
    jsGet (_removeComponent m c).components k
      = if c.id = k then none else jsGet m.components k := by
  rw [remove_components, jsGet_jsDelete]

theorem destroyAll_components_none_persist {sel : Component → Bool} {m : Model}
    {k : String} (cs : List Component) (h : jsGet m.components k = none) :
    jsGet (destroyAll sel m cs).components k = none := by
  induction cs generalizing m with
  | nil => exact h
  | cons c cs ih =>
    rw [destroyAll_cons]
    by_cases hs : sel c = true
    · rw [if_pos hs]
      apply ih
      rw [remove_components_jsGet]
      by_cases he : c.id = k
      · rw [if_pos he]
      · rw [if_neg he]
        exact h
    · rw [if_neg hs]
      exact ih h

theorem destroyAll_components_cases {sel : Component → Bool} {m : Model}
    {k : String} (cs : List Component) :
    jsGet (destroyAll sel m cs).components k = jsGet m.components k
    ∨ jsGet (destroyAll sel m cs).components k = none := by
  induction cs generalizing m with
  | nil => exact Or.inl rfl
  | cons c cs ih =>
    rw [destroyAll_cons]
    by_cases hs : sel c = true
    · rw [if_pos hs]
      rcases @ih (_removeComponent m c) with h1 | h1
      · rw [h1, remove_components_jsGet]
        by_cases he : c.id = k
        · rw [if_pos he]
          exact Or.inr rfl
        · rw [if_neg he]
          exact Or.inl rfl
      · exact Or.inr h1
    · rw [if_neg hs]
      exact ih

theorem destroyAll_removes {sel : Component → Bool} {m : Model} {c : Component}
    {cs : List Component} (hmem : c ∈ cs) (hs : sel c = true) :
    jsGet (destroyAll sel m cs).components c.id = none := by
  induction cs generalizing m with
  | nil => simp at hmem
  | cons c1 cs ih =>
    rw [destroyAll_cons]
    rcases List.mem_cons.mp hmem with heq | hmem1
    · subst heq
      rw [if_pos hs]
      apply destroyAll_components_none_persist
      rw [remove_components_jsGet, if_pos rfl]
    · exact ih hmem1

theorem WF_destroyAll {sel : Component → Bool} {m : Model} {cs : List Component}
    (hwf : WF m)
    (h : ∀ c ∈ cs, jsGet m.components c.id = some c ∨ jsGet m.components c.id = none) :
    WF (destroyAll sel m cs) := by
  induction cs generalizing m with
  | nil => exact hwf
  | cons c cs ih =>
    rw [destroyAll_cons]
    by_cases hs : sel c = true
    · rw [if_pos hs]
      apply ih (WF_remove hwf (h c (List.mem_cons_self c cs)))
      intro c1 hc1
      rw [remove_components_jsGet]
      by_cases he : c.id = c1.id
      · rw [if_pos he]
        exact Or.inr rfl
      · rw [if_neg he]
        exact h c1 (List.mem_cons_of_mem c hc1)
    · rw [if_neg hs]
      exact ih hwf (fun c1 hc1 => h c1 (List.mem_cons_of_mem c hc1))

theorem destroyAll_components_entries {sel : Component → Bool} {m : Model}
    {p : String × Component} (cs : List Component)
    (h : p ∈ (destroyAll sel m cs).components) : p ∈ m.components := by
  induction cs generalizing m with
  | nil => exact h
  | cons c cs ih =>
    rw [destroyAll_cons] at h
    by_cases hs : sel c = true
    · rw [if_pos hs] at h
      have := ih h
      rw [remove_components] at this
      exact mem_of_mem_jsDelete this
    · rw [if_neg hs] at h
      exact ih h

theorem mesh_values_sound {m : Model} (hwf : WF m) :
    ∀ c ∈ values m.meshes, jsGet m.components c.id = some c := by
  intro c hcv
  obtain ⟨k, hk⟩ := mem_values.mp hcv
  have hg : jsGet m.meshes k = some c :=
    jsGet_eq_some_of_mem_nodup hwf.meshKeysNodup hk
  have hcomp := (hwf.objSub k c (hwf.meshSub k c hg).1).1
  have hid := hwf.compId k c hcomp
  rw [hid]
  exact hcomp

theorem comp_values_sound {m : Model} (hwf : WF m) :
    ∀ c ∈ values m.components, jsGet m.components c.id = some c := by
  intro c hcv
  obtain ⟨k, hk⟩ := mem_values.mp hcv
  have hcomp : jsGet m.components k = some c :=
    jsGet_eq_some_of_mem_nodup hwf.compKeysNodup hk
  have hid := hwf.compId k c hcomp
  rw [hid]
  exact hcomp

theorem destroyAll_comp_values_empty {m : Model} (hwf : WF m) :
    (destroyAll (fun _ => true) m (values m.components)).components = [] := by
  apply eq_nil_of_jsGet_none
  intro k
  cases hk : jsGet m.components k with
  | none => exact destroyAll_components_none_persist _ hk
  | some d =>
      have hd : d.id = k := hwf.compId k d hk
      have hv : d ∈ values m.components :=
        mem_values.mpr ⟨k, mem_of_jsGet_eq_some hk⟩
      have := @destroyAll_removes (fun _ => true) m d (values m.components) hv rfl
      rwa [hd] at this

theorem WF_clear {m : Model} (hwf : WF m) : WF (clear m) := by
  have hwf1 : WF (destroyAll (fun _ => true) m (values m.meshes)) :=
    WF_destroyAll hwf (fun c hc => Or.inl (mesh_values_sound hwf c hc))
  set m1 := destroyAll (fun _ => true) m (values m.meshes) with hm1
  have hwf2 : WF (destroyAll (fun _ => true) m1 (values m1.components)) :=
    WF_destroyAll hwf1 (fun c hc => Or.inl (comp_values_sound hwf1 c hc))
  set m2 := destroyAll (fun _ => true) m1 (values m1.components) with hm2
  have hcomp2 : m2.components = [] := destroyAll_comp_values_empty hwf1
  have hent2 : m2.entities = [] := by
    apply eq_nil_of_jsGet_none
    intro k
    cases he : jsGet m2.entities k with
    | none => rfl
    | some d =>
        have hobj := (hwf2.entSub k d he).1
        have hcm := (hwf2.objSub k d hobj).1
        rw [hcomp2] at hcm
        simp [jsGet] at hcm
  show WF { m2 with components := [], numComponents := 0, types := [],
                    objects := [], meshes := [], entities := [] }
  refine ⟨?_, ?_, ?_, ?_, ?_, ?_, ?_, ?_, ?_, ?_⟩
  · simp [keys_nil]
  · simp [keys_nil]
  · intro k d hd
    simp [jsGet] at hd
  · intro k d hd
    simp [jsGet] at hd
  · intro k d hd
    simp [jsGet] at hd
  · intro k d hd
    simp [jsGet] at hd
  · intro k d hd
    simp [jsGet] at hd
  · intro l hl
    have hfr := hwf2.freshE l hl
    rw [hent2] at hfr
    simpa [keys_nil] using hfr
  · intro l hl
    exact hwf2.freshET l hl
  · intro l hl
    exact hwf2.freshG l hl

theorem WF_entityIds {m : Model} (hwf : WF m) : WF (entityIds m).1 := by
  cases he : m._entityIds with
  | some ids =>
      have h1 : (entityIds m).1 = m := by
        unfold entityIds
        rw [he]
      rw [h1]
      exact hwf
  | none =>
      have h1 : (entityIds m).1 = { m with _entityIds := some (keys m.entities) } := by
        unfold entityIds
        rw [he]
      rw [h1]
      refine ⟨hwf.compKeysNodup, hwf.meshKeysNodup, hwf.compId, hwf.objSub,
              hwf.meshSub, hwf.entSub, hwf.meshRev, ?_, hwf.freshET, hwf.freshG⟩
      intro l hl
      have h2 : some (keys m.entities) = some l := hl
      rw [← Option.some.inj h2]

theorem WF_entityTypeIds {m : Model} (hwf : WF m) : WF (entityTypeIds m).1 := by
  cases he : m._entityTypeIds with
  | some ids =>
      have h1 : (entityTypeIds m).1 = m := by
        unfold entityTypeIds
        rw [he]
      rw [h1]
      exact hwf
  | none =>
      have h1 : (entityTypeIds m).1
          = { m with _entityTypeIds := some (keys m.entityTypes) } := by
        unfold entityTypeIds
        rw [he]
      rw [h1]
      refine ⟨hwf.compKeysNodup, hwf.meshKeysNodup, hwf.compId, hwf.objSub,
              hwf.meshSub, hwf.entSub, hwf.meshRev, hwf.freshE, ?_, hwf.freshG⟩
      intro l hl
      have h2 : some (keys m.entityTypes) = some l := hl
      rw [← Option.some.inj h2]

theorem WF_objectGUIDs {m : Model} (hwf : WF m) : WF (objectGUIDs m).1 := by
  cases he : m._objectGUIDs with
  | some ids =>
      have h1 : (objectGUIDs m).1 = m := by
        unfold objectGUIDs
        rw [he]
      rw [h1]
      exact hwf
  | none =>
      have h1 : (objectGUIDs m).1
          = { m with _objectGUIDs := some (keys m.guidObjects) } := by
        unfold objectGUIDs
        rw [he]
      rw [h1]
      refine ⟨hwf.compKeysNodup, hwf.meshKeysNodup, hwf.compId, hwf.objSub,
              hwf.meshSub, hwf.entSub, hwf.meshRev, hwf.freshE, hwf.freshET, ?_⟩
      intro l hl
      have h2 : some (keys m.guidObjects) = some l := hl
      rw [← Option.some.inj h2]

theorem WF_addComponent {scene : Scene} {m : Model} {ref : AddRef} (hwf : WF m) :
    WF (_addComponent scene m ref).1 := by
  unfold _addComponent
  cases hr : resolve scene ref with
  | none => exact hwf
  | some c =>
      by_cases hs : c.sceneId ≠ m.sceneId
      · simp only [if_pos hs]
        exact hwf
      · simp only [if_neg hs]
        by_cases hp : (jsGet m.components c.id).isSome = true
        · simp only [if_pos hp]
          exact hwf
        · simp only [if_neg hp]
          exact WF_attach hwf (Option.not_isSome_iff_eq_none.mp hp)

/-!
Reachable registry states: every state produced from a fresh registry by a
sequence of `_addComponent` calls (with any scene and any of the three
argument shapes), `_removeComponent` calls, `clear()` calls, and projection
reads. `_removeComponent` is a private method reached only through the
transfer branch of `_addComponent` and through a destroyed component's
self-removal, so the step carries the corresponding soundness condition:
the component passed is the one stored under its id (or no longer
present). `clear` uses the spec's teardown contract (every destroyed
component self-removes, §4.1/§6).
-/

inductive Reachable : Model → Prop where
  | init (mid sid : Nat) : Reachable (initModel mid sid)
  | addStep (scene : Scene) (ref : AddRef) {m : Model} :
      Reachable m → Reachable (_addComponent scene m ref).1
  | removeStep (c : Component) {m : Model} : Reachable m →
      jsGet m.components c.id = some c ∨ jsGet m.components c.id = none →
      Reachable (_removeComponent m c)
  | clearStep {m : Model} : Reachable m → Reachable (clear m)
  | readEntityIds {m : Model} : Reachable m → Reachable (entityIds m).1
  | readEntityTypeIds {m : Model} : Reachable m → Reachable (entityTypeIds m).1
  | readObjectGUIDs {m : Model} : Reachable m → Reachable (objectGUIDs m).1

theorem wf_of_reachable {m : Model} (h : Reachable m) : WF m := by
  induction h with
  | init mid sid => exact WF_initModel mid sid
  | addStep scene ref _ ih => exact WF_addComponent ih
  | removeStep c _ hc ih => exact WF_remove ih hc
  | clearStep _ ih => exact WF_clear ih
  | readEntityIds _ ih => exact WF_entityIds ih
  | readEntityTypeIds _ ih => exact WF_entityTypeIds ih
  | readObjectGUIDs _ ih => exact WF_objectGUIDs ih

/-- Claim C6. In every reachable state — after any sequence of add, remove
and clear operations and any number of earlier reads — reading the
`entityIds`, `entityTypeIds` and `objectGUIDs` getters yields exactly the
current key sequence of `entities`, `entityTypes` and `guidObjects`
respectively: each cache, when populated, equals the current keys, so
deferred recomputation is never observable. -/
theorem projections_fresh {m : Model} (h : Reachable m) :
    (entityIds m).2 = keys m.entities
    ∧ (entityTypeIds m).2 = keys m.entityTypes
    ∧ (objectGUIDs m).2 = keys m.guidObjects := by
  have hwf := wf_of_reachable h
  refine ⟨?_, ?_, ?_⟩
  · cases he : m._entityIds with
    | none =>
        unfold entityIds
        rw [he]
    | some l =>
        have h2 : (entityIds m).2 = l := by
          unfold entityIds
          rw [he]
        rw [h2]
        exact hwf.freshE l he
  · cases he : m._entityTypeIds with
    | none =>
        unfold entityTypeIds
        rw [he]
    | some l =>
        have h2 : (entityTypeIds m).2 = l := by
          unfold entityTypeIds
          rw [he]
        rw [h2]
        exact hwf.freshET l he
  · cases he : m._objectGUIDs with
    | none =>
        unfold objectGUIDs
        rw [he]
    | some l =>
        have h2 : (objectGUIDs m).2 = l := by
          unfold objectGUIDs
          rw [he]
        rw [h2]
        exact hwf.freshG l he

/-- The registry after attaching the entity-classified `wallObj`. -/
def wallModel : Model := (_addComponent scene0 (initModel 1 0) (.byComp wallObj)).1

/-- Witness for C6 at a concrete reachable state holding one entity. -/
theorem projections_fresh_witness :
    (entityIds wallModel).2 = keys wallModel.entities
    ∧ (entityTypeIds wallModel).2 = keys wallModel.entityTypes
    ∧ (objectGUIDs wallModel).2 = keys wallModel.guidObjects :=
  projections_fresh
    (Reachable.addStep scene0 (.byComp wallObj) (Reachable.init 1 0))

/-- Claim C9. In every reachable state the key set of `meshes` is contained
in that of `objects`, which is contained in that of `components`, and the
key set of `entities` is contained in that of `objects` — entry-wise: the
indexed component is the same one. -/
theorem subset_invariants {m : Model} (h : Reachable m) :
    (∀ k c, jsGet m.meshes k = some c → jsGet m.objects k = some c)
    ∧ (∀ k c, jsGet m.objects k = some c → jsGet m.components k = some c)
    ∧ (∀ k c, jsGet m.entities k = some c → jsGet m.objects k = some c) := by
  have hwf := wf_of_reachable h
  exact ⟨fun k c hc => (hwf.meshSub k c hc).1,
         fun k c hc => (hwf.objSub k c hc).1,
         fun k c hc => (hwf.entSub k c hc).1⟩

/-- The registry after attaching the mesh `meshComp`. -/
def meshModel : Model := (_addComponent scene0 (initModel 1 0) (.byComp meshComp)).1

/-- Witness for C9: in the concrete reachable state holding one mesh, the
mesh entry is also an `objects` entry and a `components` entry. -/
theorem subset_invariants_witness :
    jsGet meshModel.objects "m1" = some meshCompA
    ∧ jsGet meshModel.components "m1" = some meshCompA :=
  ⟨(subset_invariants
      (Reachable.addStep scene0 (.byComp meshComp) (Reachable.init 1 0))).1
        "m1" meshCompA (by decide),
   (subset_invariants
      (Reachable.addStep scene0 (.byComp meshComp) (Reachable.init 1 0))).2.1
        "m1" meshCompA (by decide)⟩

/-- Claim C10. In every reachable state whose components satisfy the
mesh-implies-object capability contract, the destroy-notification sequence
of a `clear()` call is the `meshes` values followed by only non-mesh
components, and every mesh-flagged present component is among the `meshes`
values destroyed first: all meshes are destroyed before any non-mesh
component. -/
theorem clear_destroys_meshes_first {m : Model} (h : Reachable m)
    (hmo : ∀ p ∈ m.components, p.2.isMesh = true → p.2.isObject = true) :
    ∃ rest, clearDestroySeq m = values m.meshes ++ rest
      ∧ (∀ c ∈ values m.meshes, c.isMesh = true)
      ∧ (∀ c ∈ rest, c.isMesh = false)
      ∧ (∀ c ∈ values m.components, c.isMesh = true → c ∈ values m.meshes) := by
  have hwf := wf_of_reachable h
  refine ⟨values (destroyAll (fun _ => true) m (values m.meshes)).components,
          rfl, ?_, ?_, ?_⟩
  · intro c hc
    obtain ⟨k, hk⟩ := mem_values.mp hc
    exact (hwf.meshSub k c (jsGet_eq_some_of_mem_nodup hwf.meshKeysNodup hk)).2
  · intro c hc
    rw [Bool.eq_false_iff]
    intro hM
    obtain ⟨k, hk⟩ := mem_values.mp hc
    have hkm : (k, c) ∈ m.components := destroyAll_components_entries _ hk
    have hgm : jsGet m.components k = some c :=
      jsGet_eq_some_of_mem_nodup hwf.compKeysNodup hkm
    have hid : c.id = k := hwf.compId k c hgm
    have hO : c.isObject = true := hmo (k, c) hkm hM
    have hmesh : jsGet m.meshes k = some c := hwf.meshRev k c hgm hO hM
    have hcv : c ∈ values m.meshes :=
      mem_values.mpr ⟨k, mem_of_jsGet_eq_some hmesh⟩
    have hnone := @destroyAll_removes (fun _ => true) m c (values m.meshes) hcv rfl
    rw [hid, jsGet_eq_none_iff] at hnone
    exact hnone (by simpa [keys] using List.mem_map_of_mem Prod.fst hk)
  · intro c hc hM
    obtain ⟨k, hk⟩ := mem_values.mp hc
    have hgm : jsGet m.components k = some c :=
      jsGet_eq_some_of_mem_nodup hwf.compKeysNodup hk
    have hO : c.isObject = true := hmo (k, c) hk hM
    exact mem_values.mpr ⟨k, mem_of_jsGet_eq_some (hwf.meshRev k c hgm hO hM)⟩

/-- A plain object, neither mesh nor entity-classified. -/
def plainObj : Component :=
  { id := "p1", type := "Object", sceneId := 0, model := none,
    entityType := none, guid := none, isObject := true, isMesh := false }

/-- The registry after attaching one mesh and one plain object. -/
def mixedModel : Model :=
  (_addComponent scene0
    (_addComponent scene0 (initModel 1 0) (.byComp meshComp)).1
    (.byComp plainObj)).1

/-- Witness for C10 on the concrete registry holding one mesh and one plain
object. -/
theorem clear_destroys_meshes_first_witness :
    ∃ rest, clearDestroySeq mixedModel = values mixedModel.meshes ++ rest
      ∧ (∀ c ∈ values mixedModel.meshes, c.isMesh = true)
      ∧ (∀ c ∈ rest, c.isMesh = false)
      ∧ (∀ c ∈ values mixedModel.components, c.isMesh = true →
          c ∈ values mixedModel.meshes) :=
  clear_destroys_meshes_first
    (Reachable.addStep scene0 (.byComp plainObj)
      (Reachable.addStep scene0 (.byComp meshComp) (Reachable.init 1 0)))
    (by decide)
